import Mathlib

/-!
Shallow embedding of `skyndiminni.go`, an in-memory key/value cache with
per-entry expiration, lazy eviction on read, and a background sweeper.

The Go `map[string]*Item` is modelled as an association list without
duplicate keys; mutation is modelled by explicit state passing.  Go's
`int64` instants (`time.Now().Unix()`) and durations are modelled as `Int`;
the current time is passed as an explicit `now` argument.  A Go function
returning `(*Item, error)` is modelled as returning
`Option (Item α) × Option Err` together with the updated cache state.
-/

namespace Skyndiminni

/-- The two error values the source builds with `errors.New`:
`"key does not exist"` and `"key already exists"`. -/
inductive Err where
  | keyDoesNotExist
  | keyAlreadyExists
deriving DecidableEq, Repr

/-- `Item` from the source: `Value interface{}` (modelled by a type
parameter `α`), `Expiration int64`, `creationTime int64`. -/
structure Item (α : Type) where
  Value : α
  Expiration : Int
  creationTime : Int
deriving DecidableEq, Repr

/-- `NoExpiration time.Duration = -1` from the source; as an `int64`
expiration value it is `-1`. -/
def NoExpiration : Int := -1

/-- `DefaultExpiration time.Duration = 5 * time.Minute` (in nanoseconds, as
Go durations are). -/
def DefaultExpiration : Int := 5 * 60 * 1000000000

/-- `CheckExpired time.Duration = 10 * time.Minute` (in nanoseconds). -/
def CheckExpired : Int := 10 * 60 * 1000000000

/-- The `cache` struct: `defaultExpr`, `checkExpiredInterval` and `items`.
The `sync.RWMutex` and `sync.WaitGroup` are modelled separately (lock
traces and the sweeper state below). -/
structure CacheState (α : Type) where
  defaultExpr : Int
  checkExpiredInterval : Int
  items : List (String × Item α)
deriving DecidableEq, Repr

/-- `c.items[key]` on a Go map: the binding for `key`, if any. -/
def lookupItem {α : Type} : List (String × Item α) → String → Option (Item α)
  | [], _ => none
  | (k, v) :: rest, key => if k = key then some v else lookupItem rest key

/-- `delete(c.items, key)` on a Go map. -/
def eraseKey {α : Type} (items : List (String × Item α)) (key : String) :
    List (String × Item α) :=
  items.filter (fun p => !(p.1 == key))

/-- `NewCache` from the source: records the given `defaultExpiration`,
starts with an empty map and `checkExpiredInterval = CheckExpired`, and
returns a nil error.  (The goroutine it spawns is modelled by
`sweeperStep` below.) -/
def NewCache {α : Type} (defaultExpiration : Int) : CacheState α × Option Err :=
  ({ defaultExpr := defaultExpiration,
     checkExpiredInterval := CheckExpired,
     items := [] }, none)

/-- `Get` from the source, at current time `now = time.Now().Unix()`:
missing key fails with `"key does not exist"`; a present item is deleted
and the same error returned when `item.Expiration >= now`; otherwise the
item is returned. -/
def Get {α : Type} (now : Int) (c : CacheState α) (key : String) :
    (Option (Item α) × Option Err) × CacheState α :=
  match lookupItem c.items key with
  | none => ((none, some Err.keyDoesNotExist), c)
  | some item =>
    if item.Expiration ≥ now then
      ((none, some Err.keyDoesNotExist), { c with items := eraseKey c.items key })
    else
      ((some item, none), c)

/-- `Set` from the source, at current time `now`: an existing binding is
returned together with `"key already exists"`; otherwise a new item with
the given value, expiration and `creationTime = now` is inserted and
returned. -/
def Set {α : Type} (now : Int) (c : CacheState α) (key : String) (value : α)
    (expirationTime : Int) : (Option (Item α) × Option Err) × CacheState α :=
  match lookupItem c.items key with
  | some item => ((some item, some Err.keyAlreadyExists), c)
  | none =>
    ((some ⟨value, expirationTime, now⟩, none),
      { c with items := (key, ⟨value, expirationTime, now⟩) :: c.items })

/-- `Update` from the source: the body is `return nil, nil` — it ignores
all arguments and changes nothing. -/
def Update {α : Type} (now : Int) (c : CacheState α) (key : String) (value : α)
    (expirationTime : Int) (setIfNotExist : Bool) :
    (Option (Item α) × Option Err) × CacheState α :=
  ((none, none), c)

/-- `initExpiration` from the source (one sweep pass at time `now`):
deletes every entry with `v.Expiration >= now`. -/
def initExpiration {α : Type} (now : Int) (c : CacheState α) : CacheState α :=
  { c with items := c.items.filter (fun p => !(p.2.Expiration ≥ now : Bool)) }

/-! ### Lock traces

The source guards `items` with a `sync.RWMutex`.  Each map access of an
operation is recorded with the lock mode the source holds at that point:
`Get` runs entirely under `RLock` (including the lazy-eviction `delete`),
`Set` and `initExpiration` under `Lock`. -/

/-- Which lock of the `sync.RWMutex` is held during a map access. -/
inductive LockMode where
  | read
  | write
deriving DecidableEq, Repr

/-- The kind of access to the `items` map. -/
inductive MapAccess where
  | lookup
  | insert
  | delete
deriving DecidableEq, Repr

/-- One access to the `items` map, with the lock mode held at that point. -/
structure Access where
  mode : LockMode
  acc : MapAccess
deriving DecidableEq, Repr

/-- The map accesses `Get` performs, in order, with the lock mode held:
the source takes `RLock()` and keeps it for the lookup and for the
lazy-eviction `delete`. -/
def getTrace {α : Type} (now : Int) (c : CacheState α) (key : String) :
    List Access :=
  match lookupItem c.items key with
  | none => [⟨LockMode.read, MapAccess.lookup⟩]
  | some item =>
    if item.Expiration ≥ now then
      [⟨LockMode.read, MapAccess.lookup⟩, ⟨LockMode.read, MapAccess.delete⟩]
    else
      [⟨LockMode.read, MapAccess.lookup⟩]

/-- The map accesses `Set` performs: the source takes `Lock()` for the
lookup and the insert. -/
def setTrace {α : Type} (c : CacheState α) (key : String) : List Access :=
  match lookupItem c.items key with
  | some _ => [⟨LockMode.write, MapAccess.lookup⟩]
  | none => [⟨LockMode.write, MapAccess.lookup⟩, ⟨LockMode.write, MapAccess.insert⟩]

/-- The map accesses one sweep pass performs: the source takes `Lock()`
for the whole scan, reading every entry and deleting the stale-by-its-test
ones. -/
def sweepTrace {α : Type} (now : Int) (c : CacheState α) : List Access :=
  c.items.foldr
    (fun p acc =>
      ⟨LockMode.write, MapAccess.lookup⟩ ::
        (if p.2.Expiration ≥ now then ⟨LockMode.write, MapAccess.delete⟩ :: acc
         else acc))
    []

/-- The claimed lock discipline: every map access that is not a pure
lookup happens in write mode. -/
def writeLockDiscipline (t : List Access) : Bool :=
  t.all (fun a => (a.acc == MapAccess.lookup) || (a.mode == LockMode.write))

/-! ### The sweeper goroutine and `Close`

`NewCache` does `wg.Add(1)` and spawns `for { c.initExpiration();
time.Sleep(c.checkExpiredInterval) }`; `Close` is `c.wg.Wait()`, which
returns once the goroutine has run its deferred `wg.Done()`, i.e. once the
loop body has exited.  The loop body contains no `break`, `return` or stop
signal, so `done` below is never set by a step. -/

/-- The goroutine's state: the cache it sweeps, the current time, and
whether the goroutine has returned (its deferred `wg.Done()` has run). -/
structure SweeperState (α : Type) where
  cache : CacheState α
  now : Int
  done : Bool

/-- One iteration of the sweep loop from `NewCache`: run
`initExpiration`, then sleep for `checkExpiredInterval`.  No branch of the
body exits the loop, so `done` is left unchanged. -/
def sweeperStep {α : Type} (s : SweeperState α) : SweeperState α :=
  { cache := initExpiration s.now s.cache,
    now := s.now + s.cache.checkExpiredInterval,
    done := s.done }

/-- `n` iterations of the sweep loop. -/
def sweeperRun {α : Type} : Nat → SweeperState α → SweeperState α
  | 0, s => s
  | n + 1, s => sweeperRun n (sweeperStep s)

/-- The sweeper state right after `NewCache defaultExpiration` at time
`now`: the goroutine is running (`wg` counter 1, so `done = false`). -/
def newSweeperState (α : Type) (defaultExpiration : Int) (now : Int) :
    SweeperState α :=
  { cache := (NewCache defaultExpiration).1, now := now, done := false }

/-! ### Operation sequences (for the never-inserted and hyperproperty claims) -/

/-- One public operation on the cache. -/
inductive Op (α : Type) where
  | get (key : String)
  | set (key : String) (value : α) (expirationTime : Int)
  | update (key : String) (value : α) (expirationTime : Int) (setIfNotExist : Bool)
  | sweep
deriving Repr

/-- Run one operation at time `now`: its `(item, error)` result (sweep
has none) and the updated state. -/
def runOp {α : Type} (now : Int) (op : Op α) (c : CacheState α) :
    (Option (Item α) × Option Err) × CacheState α :=
  match op with
  | .get key => Get now c key
  | .set key value e => Set now c key value e
  | .update key value e b => Update now c key value e b
  | .sweep => ((none, none), initExpiration now c)

/-- Run a timed sequence of operations, collecting each result. -/
def runOps {α : Type} :
    List (Int × Op α) → CacheState α →
      List (Option (Item α) × Option Err) × CacheState α
  | [], c => ([], c)
  | (now, op) :: rest, c =>
    let r := runOp now op c
    let rr := runOps rest r.2
    (r.1 :: rr.1, rr.2)

/-- Whether an operation is a `Set` on the given key. -/
def setsKey {α : Type} (key : String) : Op α → Bool
  | .set k _ _ => k == key
  | _ => false

/-! ### Concrete states used as test inputs -/

/-- The state right after `NewCache(300)`. -/
def emptyCache : CacheState Int := (NewCache 300).1

/-- A cache holding one entry whose expiration instant `5` is strictly in
the past relative to `now = 100`. -/
def staleCache : CacheState Int :=
  { defaultExpr := 300, checkExpiredInterval := CheckExpired,
    items := [("a", ⟨42, 5, 0⟩)] }

/-- A cache holding one entry whose expiration instant `200` is in the
future relative to `now = 100`. -/
def futureCache : CacheState Int :=
  { defaultExpr := 300, checkExpiredInterval := CheckExpired,
    items := [("a", ⟨42, 200, 0⟩)] }

/-- A cache holding one entry stored with the `NoExpiration` sentinel. -/
def noExpCache : CacheState Int :=
  { defaultExpr := 300, checkExpiredInterval := CheckExpired,
    items := [("a", ⟨7, -1, 0⟩)] }

/-! ### Helper lemmas -/

/-- A binding that the filter keeps is still found after filtering. -/
theorem lookupItem_filter_of_some {α : Type} (l : List (String × Item α))
    (key : String) (item : Item α) (p : String × Item α → Bool)
    (h : lookupItem l key = some item) (hp : p (key, item) = true) :
    lookupItem (l.filter p) key = some item := by
  induction l with
  | nil => simp [lookupItem] at h
  | cons hd tl ih =>
    obtain ⟨k, v⟩ := hd
    by_cases hk : k = key
    · subst hk
      simp [lookupItem] at h
      subst h
      simp [List.filter_cons, hp, lookupItem]
    · simp [lookupItem, hk] at h
      by_cases hpv : p (k, v) = true
      · simp [List.filter_cons, hpv, lookupItem, hk]
        exact ih h
      · rw [List.filter_cons]
        simp only [hpv]
        simp only [Bool.false_eq_true, if_false]
        exact ih h

/-- A key absent before filtering is absent after filtering. -/
theorem lookupItem_filter_of_none {α : Type} (l : List (String × Item α))
    (key : String) (p : String × Item α → Bool)
    (h : lookupItem l key = none) :
    lookupItem (l.filter p) key = none := by
  induction l with
  | nil => simp [List.filter_nil, lookupItem]
  | cons hd tl ih =>
    obtain ⟨k, v⟩ := hd
    by_cases hk : k = key
    · simp [lookupItem, hk] at h
    · simp [lookupItem, hk] at h
      rw [List.filter_cons]
      by_cases hpv : p (k, v) = true
      · simp only [hpv, if_true]
        simp [lookupItem, hk]
        exact ih h
      · simp only [hpv]
        simp only [Bool.false_eq_true, if_false]
        exact ih h

/-- `Get` on an absent key: the source returns a nil item and the
`"key does not exist"` error without touching the map. -/
theorem Get_of_absent {α : Type} (now : Int) (c : CacheState α) (key : String)
    (h : lookupItem c.items key = none) :
    Get now c key = ((none, some Err.keyDoesNotExist), c) := by
  simp [Get, h]

/-- An operation that is not a `Set` on `key` keeps `key` absent. -/
theorem runOp_preserves_absent {α : Type} (now : Int) (op : Op α)
    (c : CacheState α) (key : String)
    (hop : setsKey key op = false) (h : lookupItem c.items key = none) :
    lookupItem (runOp now op c).2.items key = none := by
  cases op with
  | get k =>
    simp only [runOp, Get]
    cases hfind : lookupItem c.items k with
    | none => exact h
    | some item =>
      by_cases hst : item.Expiration ≥ now
      · simp only [hst, if_true]
        exact lookupItem_filter_of_none _ _ _ h
      · simp only [hst, if_false]
        exact h
  | set k v e =>
    simp only [setsKey, beq_eq_false_iff_ne, ne_eq] at hop
    simp only [runOp, Set]
    cases hfind : lookupItem c.items k with
    | none => simpa [lookupItem, hop] using h
    | some item => exact h
  | update k v e b => exact h
  | sweep => exact lookupItem_filter_of_none _ _ _ h

/-- A sequence of operations none of which is a `Set` on `key` keeps
`key` absent. -/
theorem runOps_preserves_absent {α : Type} (ops : List (Int × Op α))
    (c : CacheState α) (key : String)
    (hops : ∀ p ∈ ops, setsKey key p.2 = false)
    (h : lookupItem c.items key = none) :
    lookupItem (runOps ops c).2.items key = none := by
  induction ops generalizing c with
  | nil => exact h
  | cons p rest ih =>
    obtain ⟨now, op⟩ := p
    simp only [runOps]
    exact ih _ (fun q hq => hops q (List.mem_cons_of_mem _ hq))
      (runOp_preserves_absent now op c key (hops (now, op) (List.mem_cons_self _ _)) h)

/-- Two states with equal maps give equal results and equal maps after any
one operation: no operation reads `defaultExpr`. -/
theorem runOp_items_congr {α : Type} (now : Int) (op : Op α)
    (c1 c2 : CacheState α) (h : c1.items = c2.items) :
    (runOp now op c1).1 = (runOp now op c2).1 ∧
    (runOp now op c1).2.items = (runOp now op c2).2.items := by
  cases op with
  | get k =>
    simp only [runOp, Get, eraseKey, h]
    cases lookupItem c2.items k with
    | none => exact ⟨rfl, h⟩
    | some item =>
      by_cases hst : item.Expiration ≥ now
      · simp [hst]
      · simp [hst, h]
  | set k v e =>
    simp only [runOp, Set, h]
    cases lookupItem c2.items k with
    | none => simp [h]
    | some item => exact ⟨rfl, h⟩
  | update k v e b => exact ⟨rfl, h⟩
  | sweep => simp [runOp, initExpiration, h]

/-- Two states with equal maps give equal result lists and equal final
maps after any sequence of operations. -/
theorem runOps_items_congr {α : Type} (ops : List (Int × Op α))
    (c1 c2 : CacheState α) (h : c1.items = c2.items) :
    (runOps ops c1).1 = (runOps ops c2).1 ∧
    (runOps ops c1).2.items = (runOps ops c2).2.items := by
  induction ops generalizing c1 c2 with
  | nil => exact ⟨rfl, h⟩
  | cons p rest ih =>
    obtain ⟨now, op⟩ := p
    have h1 := runOp_items_congr now op c1 c2 h
    have h2 := ih _ _ h1.2
    simp only [runOps]
    exact ⟨by rw [h1.1, h2.1], h2.2⟩

/-- `done` is invariant under the sweep loop: no iteration of the loop
body returns from the goroutine. -/
theorem sweeperRun_done {α : Type} (n : Nat) (s : SweeperState α) :
    (sweeperRun n s).done = s.done := by
  induction n generalizing s with
  | zero => rfl
  | succ n ih =>
    rw [sweeperRun, ih]
    rfl

/-! ### The claims -/

/-- Claim C1 (evidence of the code defect): the claim says that after
`Set` of a fresh key with a strictly future expiration, an immediate `Get`
returns the value.  In the source, `Get` treats `Expiration >= now` as
stale, so at `now = 100` a just-set entry expiring at `110` is deleted by
`Get` and `NotFound` is returned instead. -/
theorem c1_get_after_future_set_fails :
    (Set 100 emptyCache "a" 42 110).1.2 = none ∧
    (Get 100 (Set 100 emptyCache "a" 42 110).2 "a").1 =
      (none, some Err.keyDoesNotExist) ∧
    lookupItem (Get 100 (Set 100 emptyCache "a" 42 110).2 "a").2.items "a" =
      none := by
  decide

/-- Claim C2 (evidence of the code defect): the claim says `Get` on an
entry expired strictly in the past fails with `NotFound` and removes it.
In the source the staleness test `Expiration >= now` is false for the
past instant `5` at `now = 100`, so `Get` returns the stale entry with no
error and leaves the map unchanged. -/
theorem c2_get_returns_stale_entry :
    (Get 100 staleCache "a").1 = (some ⟨42, 5, 0⟩, none) ∧
    (Get 100 staleCache "a").2 = staleCache := by
  decide

/-- Claim C3: `Set` on a key that already has an entry (stale or not)
returns that entry together with the `"key already exists"` error and
leaves the whole state unchanged. -/
theorem c3_set_never_overwrites {α : Type} (now : Int) (c : CacheState α)
    (key : String) (value : α) (expirationTime : Int) (item : Item α)
    (h : lookupItem c.items key = some item) :
    Set now c key value expirationTime =
      ((some item, some Err.keyAlreadyExists), c) := by
  simp [Set, h]

/-- Witness for C3 at a concrete input: the entry in `staleCache` (which
is stale at `now = 100`) blocks `Set` and is returned unchanged. -/
theorem c3_set_never_overwrites_witness :
    lookupItem staleCache.items "a" = some ⟨42, 5, 0⟩ ∧
    Set 100 staleCache "a" 99 110 =
      ((some ⟨42, 5, 0⟩, some Err.keyAlreadyExists), staleCache) :=
  ⟨by decide, c3_set_never_overwrites 100 staleCache "a" 99 110 ⟨42, 5, 0⟩ (by decide)⟩

/-- Claim C4 (evidence of the code defect): the claim describes
replace-or-insert semantics for `Update`, but the source's `Update` is
`return nil, nil`: with `setIfNotExist = true` on an absent key it creates
nothing, and with `setIfNotExist = false` on an absent key it does not
fail with `NotFound`; it never changes the state. -/
theorem c4_update_is_a_noop :
    Update 100 emptyCache "a" 99 110 true = ((none, none), emptyCache) ∧
    lookupItem (Update 100 emptyCache "a" 99 110 true).2.items "a" = none ∧
    Update 100 staleCache "a" 99 110 false = ((none, none), staleCache) := by
  decide

/-- Claim C5 (evidence of the code defect): the claim says one sweep pass
removes exactly the non-sentinel entries expired at or before now.  The
source's sweep deletes entries with `Expiration >= now`, so at `now = 100`
it keeps the past-expired entry (`Expiration = 5`) and instead deletes a
live future entry (`Expiration = 200`). -/
theorem c5_sweep_keeps_past_expired_entry :
    lookupItem (initExpiration 100 staleCache).items "a" = some ⟨42, 5, 0⟩ ∧
    (initExpiration 100 futureCache).items = [] := by
  decide

/-- Claim C6: an entry stored with the `NoExpiration` sentinel (`-1`) is
never removed, neither by `Get`'s lazy check nor by a sweep pass, at any
nonnegative clock reading (`time.Now().Unix()` is nonnegative): `Get`
returns it with the state unchanged, and the sweep keeps its binding. -/
theorem c6_noExpiration_never_evicted {α : Type} (now : Int)
    (c : CacheState α) (key : String) (item : Item α) (hnow : 0 ≤ now)
    (hfind : lookupItem c.items key = some item)
    (hexp : item.Expiration = NoExpiration) :
    Get now c key = ((some item, none), c) ∧
    lookupItem (initExpiration now c).items key = some item := by
  have hlt : ¬ (item.Expiration ≥ now) := by
    rw [hexp]
    unfold NoExpiration
    omega
  refine ⟨by simp [Get, hfind, hlt], ?_⟩
  unfold initExpiration
  refine lookupItem_filter_of_some _ _ _ _ hfind ?_
  simpa using hlt

/-- Witness for C6 at a concrete input: the sentinel entry of
`noExpCache` survives `Get` and a sweep at `now = 100`. -/
theorem c6_noExpiration_never_evicted_witness :
    ((0 : Int) ≤ 100 ∧ lookupItem noExpCache.items "a" = some ⟨7, -1, 0⟩ ∧
      (⟨7, -1, 0⟩ : Item Int).Expiration = NoExpiration) ∧
    (Get 100 noExpCache "a" = ((some ⟨7, -1, 0⟩, none), noExpCache) ∧
      lookupItem (initExpiration 100 noExpCache).items "a" = some ⟨7, -1, 0⟩) :=
  ⟨⟨by decide, by decide, by decide⟩,
    c6_noExpiration_never_evicted 100 noExpCache "a" ⟨7, -1, 0⟩
      (by decide) (by decide) (by decide)⟩

/-- Claim C7 (evidence of the code defect): the claim says `Close()`
blocks until the sweeper has stopped and then returns.  The source's sweep
loop has no exit condition, so the goroutine's deferred `wg.Done()` never
runs: after any number of loop iterations `done` is still `false`, and
`Close = wg.Wait()` therefore never returns. -/
theorem c7_sweeper_never_stops (n : Nat) :
    (sweeperRun n (newSweeperState Int 300 0)).done = false := by
  rw [sweeperRun_done]
  rfl

/-- Claim C8 (evidence of the code defect): the claim says every map
mutation holds the write lock.  The source's `Get` performs its
lazy-eviction `delete` while holding only `RLock`: the trace of `Get` on
an entry that triggers the eviction branch contains a delete in read
mode, violating the write-lock discipline. -/
theorem c8_lazy_eviction_deletes_under_read_lock :
    getTrace 100 futureCache "a" =
      [⟨LockMode.read, MapAccess.lookup⟩, ⟨LockMode.read, MapAccess.delete⟩] ∧
    writeLockDiscipline (getTrace 100 futureCache "a") = false ∧
    writeLockDiscipline (setTrace emptyCache "a") = true ∧
    writeLockDiscipline (sweepTrace 100 futureCache) = true := by
  decide

/-- Claim C9: starting from a fresh cache, after any sequence of
operations that never performs a `Set` on `key` (the source's `Update`
never inserts anything), `Get key` fails with the `"key does not exist"`
error and leaves the state unchanged. -/
theorem c9_get_never_inserted_fails {α : Type} (defaultExpiration now : Int)
    (ops : List (Int × Op α)) (key : String)
    (h : ∀ p ∈ ops, setsKey key p.2 = false) :
    Get now (runOps ops (NewCache defaultExpiration).1).2 key =
      ((none, some Err.keyDoesNotExist),
        (runOps ops (NewCache defaultExpiration).1).2) :=
  Get_of_absent now _ key
    (runOps_preserves_absent ops (NewCache defaultExpiration).1 key h rfl)

/-- Witness for C9 at a concrete input: after a `Set` of a different key,
a `Get` of it and a sweep, `Get "a"` still fails. -/
theorem c9_get_never_inserted_fails_witness :
    (∀ p ∈ [((0 : Int), Op.set "b" (1 : Int) 50), (10, Op.get "b"), (20, Op.sweep)],
      setsKey "a" p.2 = false) ∧
    Get 30 (runOps [((0 : Int), Op.set "b" (1 : Int) 50), (10, Op.get "b"),
        (20, Op.sweep)] (NewCache 300).1).2 "a" =
      ((none, some Err.keyDoesNotExist),
        (runOps [((0 : Int), Op.set "b" (1 : Int) 50), (10, Op.get "b"),
          (20, Op.sweep)] (NewCache 300).1).2) :=
  ⟨by decide,
    c9_get_never_inserted_fails 300 30
      [((0 : Int), Op.set "b" (1 : Int) 50), (10, Op.get "b"), (20, Op.sweep)]
      "a" (by decide)⟩

/-- Claim C10: the `defaultExpiration` recorded by `NewCache` is never
read again: two caches built with different values produce the same
result for every operation of any sequence and end with identical maps. -/
theorem c10_defaultExpr_unobservable {α : Type} (d1 d2 : Int)
    (ops : List (Int × Op α)) :
    (runOps ops (NewCache (α := α) d1).1).1 = (runOps ops (NewCache d2).1).1 ∧
    (runOps ops (NewCache (α := α) d1).1).2.items =
      (runOps ops (NewCache d2).1).2.items :=
  runOps_items_congr ops _ _ rfl

end Skyndiminni
